import Mathlib

/-!
Verification of the conversation-assembly, optimistic-update and image-upload
logic of the chat client in `src/components/Chat.tsx`, together with the
math-notation normalizer `formatMathContent`.

The TypeScript component is shallowly embedded: React state becomes an explicit
`ChatState` record, each user/network event becomes a deterministic transition
function, and a session is a fold of events over the initial state.  Strings
are Lean `String`s; the JavaScript regular-expression rewrites of
`formatMathContent` are implemented character by character with the exact
semantics of a global lazy `String.replace` pass.
-/

/-- `ImageData` from `src/lib/types.ts`: one uploaded image attachment.
`id`, `description`, `processed`, `progress`, `status` and `isUploading` are
optional fields in the TypeScript interface, hence `Option` here. -/
structure ImageData where
  id : Option String := none
  url : String
  description : Option String := none
  processed : Option Bool := none
  progress : Option Nat := none
  status : Option String := none
  isUploading : Option Bool := none
deriving Repr, DecidableEq

/-- Message roles from `src/lib/types.ts`. -/
inductive Role where
  | user
  | assistant
  | system
deriving Repr, DecidableEq

/-- `Message` from `src/lib/types.ts`: role, content, optional images. -/
structure Message where
  role : Role
  content : String
  images : Option (List ImageData) := none
deriving Repr, DecidableEq

/-- The shape actually posted to the completion endpoint: the sanitizing
`.map` in `Chat.tsx` (lines 235-239) keeps exactly the fields `role` and
`content`, so the transmitted element type has exactly these two fields. -/
structure SentMessage where
  role : Role
  content : String
deriving Repr, DecidableEq

/-- The two fields of a browser `File` that `handleImageUpload` inspects. -/
structure FileData where
  type : String
  size : Nat
deriving Repr, DecidableEq

/-- The values captured by `handleSubmit` before it resets the UI state
(`currentInput`, `currentImages`, lines 154-155 of `Chat.tsx`). -/
structure PendingTurn where
  currentInput : String
  currentImages : List ImageData
deriving Repr, DecidableEq

/-- JavaScript's regular-expression whitespace class. -/
def jsWhitespace (c : Char) : Bool :=
  c = ' ' || c = '\t' || c = '\n' || c = '\r' || c = '\x0b' || c = '\x0c' ||
  c = ' ' || c = ' ' || (' ' ≤ c && c ≤ ' ') ||
  c = ' ' || c = ' ' || c = ' ' || c = ' ' || c = '　' ||
  c = '﻿'

/-- JavaScript line terminators, which the unflagged `.` does not match. -/
def jsLineTerminator (c : Char) : Bool :=
  c = '\n' || c = '\r' || c = ' ' || c = ' '

/-- For the pattern of line 137 of `Chat.tsx`: after a `\(`, find the lazy
match of `(.*?)\\\)` — the shortest prefix of non-line-terminator characters
followed by `\)`.  Returns the group and the remainder after the `\)`, or
`none` when the pattern cannot match at this position. -/
def findCloseParen : List Char → Option (List Char × List Char)
  | [] => none
  | '\\' :: ')' :: rest => some ([], rest)
  | c :: rest =>
      if jsLineTerminator c then none
      else (findCloseParen rest).map (fun pr => (c :: pr.1, pr.2))

/-- Fuel-driven scan of `content.replace(/\\\((.*?)\\\)/g, '$$$1$$')` from
line 137 of `Chat.tsx`: each match `\(g\)` is replaced by `$g$`; on a failed
match the scan resumes at the next character, exactly as a global JS replace
does. -/
def replaceParenGo : Nat → List Char → List Char
  | 0, l => l
  | _, [] => []
  | fuel + 1, '\\' :: '(' :: rest =>
      match findCloseParen rest with
      | some (g, r) => '$' :: (g ++ '$' :: replaceParenGo fuel r)
      | none => '\\' :: replaceParenGo fuel ('(' :: rest)
  | fuel + 1, c :: rest => c :: replaceParenGo fuel rest

/-- For the pattern of line 138 of `Chat.tsx`: after a `\[`, the lazy match of
`([\s\S]*?)\\\]` — the shortest prefix (any characters) followed by `\]`. -/
def findCloseBracket : List Char → Option (List Char × List Char)
  | [] => none
  | '\\' :: ']' :: rest => some ([], rest)
  | c :: rest => (findCloseBracket rest).map (fun pr => (c :: pr.1, pr.2))

/-- `content.replace(/\\\[([\s\S]*?)\\\]/g, '$$$$$1$$$$')` from line 138 of
`Chat.tsx`: each match `\[g\]` is replaced by `$$g$$`. -/
def replaceBracketGo : Nat → List Char → List Char
  | 0, l => l
  | _, [] => []
  | fuel + 1, '\\' :: '[' :: rest =>
      match findCloseBracket rest with
      | some (g, r) => '$' :: '$' :: (g ++ '$' :: '$' :: replaceBracketGo fuel r)
      | none => '\\' :: replaceBracketGo fuel ('[' :: rest)
  | fuel + 1, c :: rest => c :: replaceBracketGo fuel rest

/-- Split at the first `]`: returns the characters before it and the
remainder after it. -/
def splitAtFirstClose : List Char → Option (List Char × List Char)
  | [] => none
  | ']' :: rest => some ([], rest)
  | c :: rest => (splitAtFirstClose rest).map (fun pr => (c :: pr.1, pr.2))

/-- Remove the maximal whitespace suffix (the greedy trailing `\s*` of the
bracket-command pattern backtracks to just before the closing `]`). -/
def dropTrailingWs (l : List Char) : List Char :=
  (l.reverse.dropWhile jsWhitespace).reverse

/-- Match the tail of `/\[\s*(\\[a-zA-Z]+[\s\S]*?)\s*\]/` after the opening
`[` (line 140 of `Chat.tsx`): skip whitespace, require a backslash command
token, then the lazy any-character run up to the first `]`, with trailing
whitespace stripped from the captured group. -/
def bracketCmdMatch (l : List Char) : Option (List Char × List Char) :=
  let l1 := l.dropWhile jsWhitespace
  match l1 with
  | '\\' :: l2 =>
      let letters := l2.takeWhile Char.isAlpha
      let l3 := l2.dropWhile Char.isAlpha
      if letters.isEmpty then none
      else
        match splitAtFirstClose l3 with
        | some (mid, rest) => some ('\\' :: (letters ++ dropTrailingWs mid), rest)
        | none => none
  | _ => none

/-- `content.replace(/\[\s*(\\[a-zA-Z]+[\s\S]*?)\s*\]/g, '$$$$$1$$$$')` from
line 140 of `Chat.tsx`: a bracket span beginning with a backslash command is
replaced by `$$g$$`. -/
def replaceBracketCmdGo : Nat → List Char → List Char
  | 0, l => l
  | _, [] => []
  | fuel + 1, '[' :: rest =>
      match bracketCmdMatch rest with
      | some (g, r) => '$' :: '$' :: (g ++ '$' :: '$' :: replaceBracketCmdGo fuel r)
      | none => '[' :: replaceBracketCmdGo fuel rest
  | fuel + 1, c :: rest => c :: replaceBracketCmdGo fuel rest

/-- Does `pat` occur as a prefix of `l`? -/
def startsWithChars : List Char → List Char → Bool
  | [], _ => true
  | _ :: _, [] => false
  | p :: ps, c :: cs => p = c && startsWithChars ps cs

/-- Global replacement of a fixed non-empty literal pattern, scanning left to
right without overlap — the semantics of a JS global replace whose pattern
contains no metacharacters (lines 142-143 of `Chat.tsx`). -/
def replaceLiteralGo (pat rep : List Char) : Nat → List Char → List Char
  | 0, l => l
  | _, [] => []
  | fuel + 1, l@(c :: rest) =>
      if startsWithChars pat l then rep ++ replaceLiteralGo pat rep fuel (l.drop pat.length)
      else c :: replaceLiteralGo pat rep fuel rest

/-- `content.replace(/\\phi\s+/g, '\\phi ')` from line 144 of `Chat.tsx`:
`\phi` followed by at least one whitespace character has the whole greedy
whitespace run collapsed to a single space. -/
def replacePhiGo : Nat → List Char → List Char
  | 0, l => l
  | _, [] => []
  | fuel + 1, '\\' :: 'p' :: 'h' :: 'i' :: rest =>
      match rest with
      | c :: _ =>
          if jsWhitespace c then
            '\\' :: 'p' :: 'h' :: 'i' :: ' ' :: replacePhiGo fuel (rest.dropWhile jsWhitespace)
          else '\\' :: replacePhiGo fuel ('p' :: 'h' :: 'i' :: rest)
      | [] => '\\' :: 'p' :: 'h' :: 'i' :: []
  | fuel + 1, c :: rest => c :: replacePhiGo fuel rest

/-- `content.replace(/\\frac\s+{/g, '\\frac{')` from line 145 of `Chat.tsx`:
`\frac`, at least one whitespace character, then an opening brace, rewritten
without the whitespace. -/
def replaceFracGo : Nat → List Char → List Char
  | 0, l => l
  | _, [] => []
  | fuel + 1, '\\' :: 'f' :: 'r' :: 'a' :: 'c' :: rest =>
      (fun ws tl =>
        if !ws.isEmpty then
          match tl with
          | '\x7b' :: rest2 =>
              '\\' :: 'f' :: 'r' :: 'a' :: 'c' :: '\x7b' :: replaceFracGo fuel rest2
          | _ => '\\' :: replaceFracGo fuel ('f' :: 'r' :: 'a' :: 'c' :: rest)
        else '\\' :: replaceFracGo fuel ('f' :: 'r' :: 'a' :: 'c' :: rest))
        (rest.takeWhile jsWhitespace) (rest.dropWhile jsWhitespace)
  | fuel + 1, c :: rest => c :: replaceFracGo fuel rest

/-- The first rewrite of `formatMathContent`: `\(...\)` to `$...$`. -/
def replaceParen (s : String) : String :=
  String.mk (replaceParenGo (s.data.length + 1) s.data)

/-- The second rewrite of `formatMathContent`: `\[...\]` to `$$...$$`. -/
def replaceBracketEsc (s : String) : String :=
  String.mk (replaceBracketGo (s.data.length + 1) s.data)

/-- The third rewrite of `formatMathContent`: `[ \cmd ... ]` to `$$...$$`. -/
def replaceBracketCmd (s : String) : String :=
  String.mk (replaceBracketCmdGo (s.data.length + 1) s.data)

/-- The typo patch `\partia l` to `\partial` (line 142 of `Chat.tsx`). -/
def replacePartialTypo (s : String) : String :=
  String.mk (replaceLiteralGo
    ['\\', 'p', 'a', 'r', 't', 'i', 'a', ' ', 'l']
    ['\\', 'p', 'a', 'r', 't', 'i', 'a', 'l']
    (s.data.length + 1) s.data)

/-- The typo patch `\delt a` to `\delta` (line 143 of `Chat.tsx`). -/
def replaceDeltaTypo (s : String) : String :=
  String.mk (replaceLiteralGo
    ['\\', 'd', 'e', 'l', 't', ' ', 'a']
    ['\\', 'd', 'e', 'l', 't', 'a']
    (s.data.length + 1) s.data)

/-- The whitespace patch after `\phi` (line 144 of `Chat.tsx`). -/
def replacePhiTypo (s : String) : String :=
  String.mk (replacePhiGo (s.data.length + 1) s.data)

/-- The whitespace patch inside `\frac {` (line 145 of `Chat.tsx`). -/
def replaceFracTypo (s : String) : String :=
  String.mk (replaceFracGo (s.data.length + 1) s.data)

/-- The three delimiter rewrites of `formatMathContent` (lines 136-140 of
`Chat.tsx`), in source order. -/
def delimiterRewrites (s : String) : String :=
  replaceBracketCmd (replaceBracketEsc (replaceParen s))

/-- `formatMathContent` (lines 132-146 of `Chat.tsx`): the falsy guard on
empty content, the three delimiter rewrites, then the four typo patches, in
source order. -/
def formatMathContent (content : String) : String :=
  if content = "" then content
  else
    replaceFracTypo (replacePhiTypo (replaceDeltaTypo (replacePartialTypo
      (delimiterRewrites content))))

/-- JS `String.prototype.trim`: strip JS whitespace (including line
terminators) from both ends. -/
def jsTrim (s : String) : String :=
  String.mk (dropTrailingWs (s.data.dropWhile jsWhitespace))

/-- JS `String.prototype.startsWith` on whole strings. -/
def strStartsWith (s pre : String) : Bool :=
  startsWithChars pre.data s.data

/-- JS template interpolation renders `undefined` as the string "undefined";
`img.description` is optional, so this is the faithful rendering used in the
template literals of `Chat.tsx`. -/
def descStr (img : ImageData) : String :=
  img.description.getD "undefined"

/-- Lines 210-213 (and, verbatim again, lines 316-319) of `Chat.tsx`:
`currentImages.map((img, index) => ...).filter(Boolean).join('\n\n')`.
`filter(Boolean)` drops empty strings (a JS falsy check). -/
def imageDescriptions (imgs : List ImageData) : String :=
  String.intercalate "\n\n"
    (((imgs.enum.map (fun p =>
        "[IMAGE " ++ toString (p.1 + 1) ++ " ANALYSIS]:\n" ++ descStr p.2))).filter
      (fun s => s ≠ ""))

/-- The outbound image-analysis message synthesized for the request context
(lines 215-218 of `Chat.tsx`). -/
def analysisMessage (imgs : List ImageData) : Message :=
  { role := Role.user
    content :=
      "[CONTEXT: IMAGE ANALYSIS] The user has provided " ++ toString imgs.length ++
      " image(s). Here is the detailed analysis:\n\n" ++ imageDescriptions imgs ++
      "\n\n(Refer to these as Image 1, Image 2, etc. Use this context to answer the user\x27s questions.)" }

/-- The analysis message re-created for the persisted log on the success path
(lines 320-323 of `Chat.tsx`).  Note the different framing: no image count,
a single newline after the header, and a different closing sentence. -/
def analysisMsgPersisted (imgs : List ImageData) : Message :=
  { role := Role.user
    content :=
      "[CONTEXT: IMAGE ANALYSIS] The user has provided images. Here is the detailed analysis:\n" ++
      imageDescriptions imgs ++
      "\n\n(Use this information to answer the user\x27s questions about the images.)" }

/-- The fixed persona/system message (lines 181-199 of `Chat.tsx`); the
template literal keeps the source indentation of eight spaces on continuation
lines. -/
def baseSystemMessage : Message :=
  { role := Role.system
    content :=
      "Nama kamu adalah \"Kacung\". Kamu adalah asisten pribadi yang ramah.\n        ATURAN PENTING:\n        - JANGAN PERNAH memberitahu informasi tentang model AI kamu (seperti Mistral, Gemma, dll).\n        - Jangan pernah sebutkan bahwa kamu adalah model AI.\n        - Jika ditanya siapa kamu atau model apa kamu, jawablah bahwa kamu adalah Kacung.\n        \n        IMPORTANT MATH RULES:\n        - Use standard LaTeX for all mathematical formulas. \n        - Use $...$ for inline math and $$...$$ for block math. \n        - NEVER use \\( \\) or \\[ \\] or bare brackets [ ].\n        - DO NOT put spaces inside LaTeX commands (e.g., use \\partial not \\partia l).\n        - If you see a complex formula, ALWAYS wrap it in $$...$$.\n        \n        GENERAL RULES:\n        - ALWAYS respond in the same language as the user.\n        - If just greeted, respond naturally without excessive capability listing." }

/-- `userMessageForApi` (lines 223-226 of `Chat.tsx`). -/
def userMessageForApi (currentInput : String) : Message :=
  { role := Role.user, content := currentInput }

/-- `newMessagesToAdd` (lines 206-227 of `Chat.tsx`): the analysis message is
pushed only when `currentImages.length > 0`, followed by the user message. -/
def newMessagesToAdd (currentInput : String) (currentImages : List ImageData) : List Message :=
  (if currentImages.length > 0 then [analysisMessage currentImages] else []) ++
    [userMessageForApi currentInput]

/-- The array literal of lines 230-234 of `Chat.tsx`, before the sanitizing
`.map`: persona, optional internal summary, the captured `messages` state
(prior visible history, not yet containing the just-typed turn), then the new
messages. -/
def assembledMessages (messages : List Message) (internalSummary : Option Message)
    (currentInput : String) (currentImages : List ImageData) : List Message :=
  [baseSystemMessage] ++ internalSummary.toList ++ messages ++
    newMessagesToAdd currentInput currentImages

/-- The sanitizing projection of lines 235-239 of `Chat.tsx`. -/
def sanitizeMessage (m : Message) : SentMessage :=
  { role := m.role, content := m.content }

/-- `finalContext` (lines 230-239 of `Chat.tsx`): the assembled list mapped
through the sanitizing projection. -/
def finalContext (messages : List Message) (internalSummary : Option Message)
    (currentInput : String) (currentImages : List ImageData) : List SentMessage :=
  (assembledMessages messages internalSummary currentInput currentImages).map sanitizeMessage

/-- The success-path `setMessages` updater (lines 288-338 of `Chat.tsx`):
when the turn carried images, pop the just-appended user message, insert the
re-created analysis message before it, push the user message back, then push
the assistant message.  `Array.pop` on an empty array yields `undefined`, so
the insertion is skipped on an empty log. -/
def applyAssistantResponse (msgs : List Message) (currentImages : List ImageData)
    (assistantMessage : Message) : List Message :=
  let newHistory :=
    if currentImages.length > 0 then
      match msgs.getLast? with
      | some lastMsg => msgs.dropLast ++ [analysisMsgPersisted currentImages, lastMsg]
      | none => msgs
    else msgs
  newHistory ++ [assistantMessage]

/-- The React state of the `Chat` component that the claims depend on
(`selectedModel` and the dropdown flag are pure presentation and omitted). -/
structure ChatState where
  messages : List Message := []
  input : String := ""
  isLoading : Bool := false
  error : Option String := none
  internalSummary : Option Message := none
  uploadedImages : List ImageData := []
  aiResponseProgress : Nat := 0
  aiResponseStatus : String := ""
  hasConversationSummary : Bool := false
  isSummarizing : Bool := false
deriving Repr, DecidableEq

/-- `isProcessingImage` (line 30 of `Chat.tsx`):
`uploadedImages.some(img => img.isUploading)`; a missing field is falsy. -/
def isProcessingImage (s : ChatState) : Bool :=
  s.uploadedImages.any (fun img => img.isUploading.getD false)

/-- The submission guard of line 151 of `Chat.tsx`, negated: the submission is
accepted iff (trimmed input is non-empty or an image is staged) and no request
is in flight and no image is uploading. -/
def submitGuard (s : ChatState) : Bool :=
  (!decide (jsTrim s.input = "") || !decide (s.uploadedImages = [])) &&
    !s.isLoading && !isProcessingImage s

/-- The synchronous prefix of an accepted `handleSubmit` (lines 153-251 of
`Chat.tsx`), through the last state update before the `fetch` suspends:
capture and trim the input, capture the staged images, clear both, append the
optimistic user message (which carries the captured images), set the loading
flag, clear the error, and leave the progress indicator at its pre-request
value 25 with status "Sending request to AI...". -/
def submitChat (s : ChatState) : ChatState :=
  let currentInput := jsTrim s.input
  let currentImages := s.uploadedImages
  { s with
      input := ""
      uploadedImages := []
      messages := s.messages ++
        [{ role := Role.user, content := currentInput, images := some currentImages }]
      isLoading := true
      error := none
      aiResponseProgress := 25
      aiResponseStatus := "Sending request to AI..." }

/-- One tick of the simulated-progress interval (lines 246-251 of
`Chat.tsx`): stall at 85, otherwise advance by one. -/
def tickProgress (p : Nat) : Nat :=
  if p ≥ 85 then p else p + 1

/-- Apply one progress tick to the component state. -/
def tickChat (s : ChatState) : ChatState :=
  { s with aiResponseProgress := tickProgress s.aiResponseProgress }

/-- The error-message computation of line 272 of `Chat.tsx`:
`data.error || 'Failed to get response'`.  A JS `||` falls through on every
falsy value, so an absent field and the empty string both yield the generic
message. -/
def errorMessageOfBody (body : Option String) : String :=
  match body with
  | some e => if e = "" then "Failed to get response" else e
  | none => "Failed to get response"

/-- Successful resolution of the in-flight request (lines 264-344 of
`Chat.tsx`, without the delayed progress reset): progress is snapped to 100,
the log is rewritten by the success-path updater, and the loading flag drops.
The assistant message is parsed from the response JSON as role and content, so
its `images` field is absent. -/
def resolveOkChat (s : ChatState) (t : PendingTurn) (r : SentMessage) : ChatState :=
  { s with
      aiResponseProgress := 100
      aiResponseStatus := "Response received"
      messages := applyAssistantResponse s.messages t.currentImages
        { role := r.role, content := r.content, images := none }
      isLoading := false }

/-- Failed resolution (lines 266-268 then 270-273 and 346-355 of `Chat.tsx`):
the status had already been set at the 85% step, the thrown message lands in
`error`, progress resets to 0, the log is not rolled back, and the loading
flag drops in `finally`. -/
def resolveErrChat (s : ChatState) (body : Option String) : ChatState :=
  { s with
      aiResponseStatus := "Processing AI response..."
      error := some (errorMessageOfBody body)
      aiResponseProgress := 0
      isLoading := false }

/-- The delayed reset scheduled on the success path (lines 341-344 of
`Chat.tsx`). -/
def progressResetChat (s : ChatState) : ChatState :=
  { s with aiResponseProgress := 0, aiResponseStatus := "" }

/-- `clearChat` (lines 358-367 of `Chat.tsx`). -/
def clearChatState (s : ChatState) : ChatState :=
  { s with
      messages := []
      internalSummary := none
      uploadedImages := []
      aiResponseProgress := 0
      error := none
      hasConversationSummary := false
      isSummarizing := false }

/-- The validation prefix of `handleImageUpload` (lines 373-383 of
`Chat.tsx`): MIME type must start with "image/", size must be at most
10 * 1024 * 1024 bytes; the first failing check produces its user-visible
message and the handler returns before touching the attachment list or the
network. -/
def validateImageFile (f : FileData) : Option String :=
  if !strStartsWith f.type "image/" then some "Please upload a valid image file"
  else if f.size > 10 * 1024 * 1024 then some "Image size must be less than 10MB"
  else none

/-- `initialImageData` (lines 386-392 of `Chat.tsx`); the id is the token
drawn from `Math.random().toString(36).substring(7)`, supplied here by the
environment. -/
def initialImageData (token : String) : ImageData :=
  { id := some token
    url := ""
    isUploading := some true
    progress := some 0
    status := some "Starting..." }

/-- `updateImage` (lines 396-400 of `Chat.tsx`): map over the attachment list
and update every entry whose `id` equals the captured `imageId`. -/
def updateImageById (imgs : List ImageData) (imageId : String)
    (f : ImageData → ImageData) : List ImageData :=
  imgs.map (fun img => if img.id = some imageId then f img else img)

/-- The attachment-list effect of a successful upload (lines 394-460 of
`Chat.tsx`): append the initial entry, then the successive `updateImage`
calls of the pipeline.  The per-attachment interval ticks only touch entries
whose id matches the token, and every such entry has its `progress` and
`status` overwritten by the final two updates, so the tick count does not
affect the resulting state.  `desc` is the `JSON.stringify`-serialized
description returned by the vision endpoint. -/
def uploadOkImages (imgs : List ImageData) (token url desc : String) : List ImageData :=
  let i0 := imgs ++ [initialImageData token]
  let i1 := updateImageById i0 token
    (fun img => { img with progress := some 15, status := some "Converting..." })
  let i2 := updateImageById i1 token
    (fun img => { img with progress := some 30, status := some "Processing data...", url := url })
  let i3 := updateImageById i2 token
    (fun img => { img with progress := some 40, status := some "Analyzing Image..." })
  let i4 := updateImageById i3 token
    (fun img => { img with progress := some 90, status := some "Finalizing..." })
  updateImageById i4 token
    (fun img => { img with
        progress := some 100
        status := some "Complete"
        description := some desc
        processed := some true
        isUploading := some false })

/-- Outcome of the asynchronous part of one upload, supplied by the
environment: either the vision call succeeds with the encoded data URL and a
serialized description, or some step throws with an error message. -/
inductive UploadOutcome where
  | netSuccess (url desc : String)
  | netFailure (errMsg : String)
deriving Repr, DecidableEq

/-- One complete run of `handleImageUpload` (lines 370-474 of `Chat.tsx`):
validation failure sets the error and returns (no attachment added, no network
call); a successful upload applies the attachment pipeline; any later failure
lands in the catch block, which sets the error and removes every attachment
whose id equals the token. -/
def uploadEventChat (s : ChatState) (f : FileData) (token : String)
    (outcome : UploadOutcome) : ChatState :=
  match validateImageFile f with
  | some msg => { s with error := some msg }
  | none =>
    match outcome with
    | UploadOutcome.netSuccess url desc =>
        { s with uploadedImages := uploadOkImages s.uploadedImages token url desc }
    | UploadOutcome.netFailure errMsg =>
        { s with error := some errMsg,
                 uploadedImages := s.uploadedImages.filter
                   (fun img => !decide (img.id = some token)) }

/-- The component state plus the in-flight request's captured closure values:
`pending` is `some` exactly while a completion request is outstanding. -/
structure SystemState where
  chat : ChatState
  pending : Option PendingTurn
deriving Repr, DecidableEq

/-- The freshly mounted component. -/
def initState : SystemState :=
  { chat := {}, pending := none }

/-- The external events a session can experience.  Each corresponds to a real
schedule of the single-threaded event loop: user actions (typing, uploading,
removing an image, submitting, clearing) and the resolutions of asynchronous
work (request success/failure, the progress-interval tick, the delayed
feedback resets). -/
inductive Event where
  | typeInput (text : String)
  | upload (f : FileData) (token : String) (outcome : UploadOutcome)
  | feedbackClear (token : String)
  | removeImg (i : Nat)
  | submit
  | tick
  | resolveOk (r : SentMessage)
  | resolveErr (body : Option String)
  | progressReset
  | clear
deriving Repr, DecidableEq

/-- Deterministic transition function.  Events that the real program cannot
experience in the given state (typing or uploading while the inputs are
disabled by `isLoading`, a tick or resolution with no request in flight, a
rejected submission) leave the state unchanged, so every trace denotes a
reachable state of the component. -/
def runEvent (st : SystemState) (e : Event) : SystemState :=
  match e with
  | Event.typeInput text =>
      if st.chat.isLoading then st
      else { chat := { st.chat with input := text }, pending := st.pending }
  | Event.upload f token outcome =>
      if st.chat.isLoading then st
      else { chat := uploadEventChat st.chat f token outcome, pending := st.pending }
  | Event.feedbackClear token =>
      { chat := { st.chat with
          uploadedImages := updateImageById st.chat.uploadedImages token
            (fun img => { img with progress := none, status := none }) }
        pending := st.pending }
  | Event.removeImg i =>
      { chat := { st.chat with
          uploadedImages := (st.chat.uploadedImages.enum.filter
            (fun p => !(p.1 = i))).map Prod.snd }
        pending := st.pending }
  | Event.submit =>
      if submitGuard st.chat then
        { chat := submitChat st.chat
          pending := some { currentInput := jsTrim st.chat.input
                            currentImages := st.chat.uploadedImages } }
      else st
  | Event.tick =>
      match st.pending with
      | some _ => { chat := tickChat st.chat, pending := st.pending }
      | none => st
  | Event.resolveOk r =>
      match st.pending with
      | some t => { chat := resolveOkChat st.chat t r, pending := none }
      | none => st
  | Event.resolveErr body =>
      match st.pending with
      | some _ => { chat := resolveErrChat st.chat body, pending := none }
      | none => st
  | Event.progressReset =>
      { chat := progressResetChat st.chat, pending := st.pending }
  | Event.clear =>
      { chat := clearChatState st.chat, pending := st.pending }

/-- Run a list of events, oldest first. -/
def runTrace (st : SystemState) (evs : List Event) : SystemState :=
  evs.foldl runEvent st

/-- A state is reachable when some event trace leads to it from the freshly
mounted component. -/
def Reachable (st : SystemState) : Prop :=
  ∃ evs, runTrace initState evs = st

/-- Is this log entry the optimistic user message of a turn submitted with at
least one image?  Such messages carry the captured image list in `images`. -/
def imageTurn (m : Message) : Bool :=
  decide (m.role = Role.user) && !decide (m.images.getD [] = [])

/-- Walk the log remembering the previous entry: every image-turn user
message must be immediately preceded by the persisted analysis message
synthesized from exactly its image list. -/
def chkFrom (prev : Option Message) : List Message → Bool
  | [] => true
  | m :: rest =>
      (if imageTurn m then
        match prev with
        | some p => decide (p = analysisMsgPersisted (m.images.getD []))
        | none => false
      else true) && chkFrom (some m) rest

/-- The C2 log invariant: every image-turn user message in the log is
immediately preceded by its synthesized analysis message. -/
def logInvariantHolds (l : List Message) : Bool :=
  chkFrom none l

/-- Events that belong to the submission/resolution cycle of a turn. -/
def isTurnEvent : Event → Bool
  | Event.submit => true
  | Event.resolveOk _ => true
  | Event.resolveErr _ => true
  | _ => false

/-- Upload events are the only events that can add a staged attachment. -/
def isUploadEvent : Event → Bool
  | Event.upload _ _ _ => true
  | _ => false

/-- Traces in which every submission is immediately resolved successfully:
arbitrary non-turn activity, and turns that complete on the success path. -/
inductive GoodTrace : List Event → Prop where
  | nil : GoodTrace []
  | nonturn (e : Event) (evs : List Event) :
      isTurnEvent e = false → GoodTrace evs → GoodTrace (e :: evs)
  | turn (r : SentMessage) (evs : List Event) :
      GoodTrace evs → GoodTrace (Event.submit :: Event.resolveOk r :: evs)

/-- The last element of the list, falling back to `prev` when it is empty. -/
def lastOr (prev : Option Message) : List Message → Option Message
  | [] => prev
  | m :: rest => lastOr (some m) rest

/-- While a request is in flight, the simulated progress value stays at or
below the 85 cap. -/
def inFlightProgressOk (st : SystemState) : Prop :=
  st.pending.isSome = true → st.chat.aiResponseProgress ≤ 85

/-- The session used to refute C2: one valid image upload completes, the turn
is submitted (optimistically appending the user message with its image), and
the completion request fails. -/
def c2Trace : List Event :=
  [Event.upload { type := "image/png", size := 5 } "t1"
     (UploadOutcome.netSuccess "u" "desc1"),
   Event.submit,
   Event.resolveErr (some "boom")]

/-- The quiescent state after the failed image turn. -/
def c2BadState : SystemState := runTrace initState c2Trace

/-- The reachable state with a request in flight for the turn "Hello". -/
def c4PendingState : SystemState :=
  runTrace initState [Event.typeInput "Hello", Event.submit]

/-- A nested-delimiter input whose single-pass output still contains a
rewritable `\(...\)` span. -/
def c6Source : String := "\\(a\\(b\\(c\\) \\) \\) "

/-- The reachable state with the turn "Hello" in flight, shared by several
witnesses. -/
def pendingHello : SystemState :=
  runTrace initState [Event.typeInput "Hello", Event.submit]

/-- Two uploads whose randomly drawn id tokens collide. -/
def collideTrace : List Event :=
  [Event.upload { type := "image/png", size := 100 } "abc"
     (UploadOutcome.netSuccess "uA" "d1"),
   Event.upload { type := "image/png", size := 100 } "abc"
     (UploadOutcome.netSuccess "uB" "d2")]

/-- The reachable state holding two attachments with the same id. -/
def collideState : SystemState := runTrace initState collideTrace

theorem chkFrom_append (prev : Option Message) (l1 l2 : List Message) :
    chkFrom prev (l1 ++ l2) = (chkFrom prev l1 && chkFrom (lastOr prev l1) l2) := by
  induction l1 generalizing prev with
  | nil => simp [chkFrom, lastOr]
  | cons m rest ih => simp [chkFrom, lastOr, ih, Bool.and_assoc]

theorem uploadEventChat_messages (s : ChatState) (f : FileData) (token : String)
    (o : UploadOutcome) : (uploadEventChat s f token o).messages = s.messages := by
  unfold uploadEventChat
  cases hv : validateImageFile f
  · cases o <;> rfl
  · rfl

theorem uploadEventChat_pending_free (s : ChatState) (f : FileData) (token : String)
    (o : UploadOutcome) : (uploadEventChat s f token o).isLoading = s.isLoading := by
  unfold uploadEventChat
  cases hv : validateImageFile f
  · cases o <;> rfl
  · rfl

theorem runEvent_nonturn_messages (st : SystemState) (e : Event)
    (h : isTurnEvent e = false) :
    (runEvent st e).chat.messages = st.chat.messages ∨
      (runEvent st e).chat.messages = [] := by
  cases e with
  | typeInput t =>
      left; simp only [runEvent]; split <;> rfl
  | upload f token o =>
      left; simp only [runEvent]; split
      · rfl
      · exact uploadEventChat_messages st.chat f token o
  | feedbackClear token => left; rfl
  | removeImg i => left; rfl
  | submit => simp [isTurnEvent] at h
  | tick =>
      left; simp only [runEvent]
      cases st.pending <;> rfl
  | resolveOk r => simp [isTurnEvent] at h
  | resolveErr b => simp [isTurnEvent] at h
  | progressReset => left; rfl
  | clear => right; rfl

theorem runEvent_nonturn_pending (st : SystemState) (e : Event)
    (h : isTurnEvent e = false) : (runEvent st e).pending = st.pending := by
  cases e with
  | typeInput t => simp only [runEvent]; split <;> rfl
  | upload f token o => simp only [runEvent]; split <;> rfl
  | feedbackClear token => rfl
  | removeImg i => rfl
  | submit => simp [isTurnEvent] at h
  | tick =>
      simp only [runEvent]
      cases hp : st.pending with
      | none => exact hp
      | some t => rfl
  | resolveOk r => simp [isTurnEvent] at h
  | resolveErr b => simp [isTurnEvent] at h
  | progressReset => rfl
  | clear => rfl

theorem applyAssistantResponse_concat (log : List Message) (u : Message)
    (imgs : List ImageData) (r : Message) (h : imgs ≠ []) :
    applyAssistantResponse (log ++ [u]) imgs r =
      log ++ [analysisMsgPersisted imgs, u, r] := by
  unfold applyAssistantResponse
  have hlen : imgs.length > 0 := List.length_pos.mpr h
  simp [hlen, List.getLast?_concat, List.dropLast_concat]

theorem applyAssistantResponse_no_images (log : List Message) (r : Message) :
    applyAssistantResponse log [] r = log ++ [r] := by
  unfold applyAssistantResponse
  simp

theorem imageTurn_of_images_none (m : Message) (h : m.images = none) :
    imageTurn m = false := by
  simp [imageTurn, h]

theorem chkFrom_turn_suffix (p : Option Message) (text : String)
    (imgs : List ImageData) (rm : Message) (h : rm.images = none) :
    chkFrom p [analysisMsgPersisted imgs,
      { role := Role.user, content := text, images := some imgs }, rm] = true := by
  simp [chkFrom, imageTurn, analysisMsgPersisted, h]

theorem chkFrom_turn_suffix_no_images (p : Option Message) (text : String)
    (rm : Message) (h : rm.images = none) :
    chkFrom p [{ role := Role.user, content := text, images := some [] }, rm] = true := by
  simp [chkFrom, imageTurn, h]

theorem goodTrace_invariant (evs : List Event) (hg : GoodTrace evs) :
    ∀ st : SystemState, st.pending = none →
      logInvariantHolds st.chat.messages = true →
      logInvariantHolds (runTrace st evs).chat.messages = true ∧
        (runTrace st evs).pending = none := by
  induction hg with
  | nil => intro st h1 h2; exact ⟨h2, h1⟩
  | nonturn e evs he _ ih =>
      intro st hp hinv
      have hstep : runTrace st (e :: evs) = runTrace (runEvent st e) evs := rfl
      rw [hstep]
      apply ih
      · rw [runEvent_nonturn_pending st e he]; exact hp
      · cases runEvent_nonturn_messages st e he with
        | inl h => rw [h]; exact hinv
        | inr h => rw [h]; rfl
  | turn r evs _ ih =>
      intro st hp hinv
      have hstep : runTrace st (Event.submit :: Event.resolveOk r :: evs) =
          runTrace (runEvent (runEvent st Event.submit) (Event.resolveOk r)) evs := rfl
      rw [hstep]
      by_cases hguard : submitGuard st.chat = true
      · have h1 : runEvent st Event.submit =
            { chat := submitChat st.chat
              pending := some { currentInput := jsTrim st.chat.input
                                currentImages := st.chat.uploadedImages } } := by
          simp [runEvent, hguard]
        have h2 : runEvent (runEvent st Event.submit) (Event.resolveOk r) =
            { chat := resolveOkChat (submitChat st.chat)
                { currentInput := jsTrim st.chat.input
                  currentImages := st.chat.uploadedImages } r
              pending := none } := by
          rw [h1]; rfl
        rw [h2]
        apply ih
        · rfl
        · show logInvariantHolds (applyAssistantResponse
            (st.chat.messages ++
              [{ role := Role.user, content := jsTrim st.chat.input,
                 images := some st.chat.uploadedImages }])
            st.chat.uploadedImages
            { role := r.role, content := r.content, images := none }) = true
          by_cases himgs : st.chat.uploadedImages = []
          · rw [himgs, applyAssistantResponse_no_images]
            unfold logInvariantHolds
            rw [List.append_assoc, chkFrom_append]
            unfold logInvariantHolds at hinv
            rw [hinv]
            simp [chkFrom_turn_suffix_no_images]
          · rw [applyAssistantResponse_concat _ _ _ _ himgs]
            unfold logInvariantHolds
            rw [chkFrom_append]
            unfold logInvariantHolds at hinv
            rw [hinv]
            simp [chkFrom_turn_suffix]
      · have hng : submitGuard st.chat = false := by
          simpa using hguard
        have h1 : runEvent st Event.submit = st := by
          simp [runEvent, hng]
        have h2 : runEvent st (Event.resolveOk r) = st := by
          simp [runEvent, hp]
        rw [h1, h2]
        exact ih st hp hinv

theorem uploadEventChat_progress (s : ChatState) (f : FileData) (token : String)
    (o : UploadOutcome) :
    (uploadEventChat s f token o).aiResponseProgress = s.aiResponseProgress := by
  unfold uploadEventChat
  cases hv : validateImageFile f
  · cases o <;> rfl
  · rfl

theorem runEvent_staging_empty (st : SystemState) (e : Event)
    (he : isUploadEvent e = false) (h : st.chat.uploadedImages = []) :
    (runEvent st e).chat.uploadedImages = [] := by
  cases e with
  | typeInput t => simp only [runEvent]; split <;> exact h
  | upload f token o => simp [isUploadEvent] at he
  | feedbackClear token => simp [runEvent, updateImageById, h]
  | removeImg i => simp [runEvent, h]
  | submit =>
      simp only [runEvent]; split
      · rfl
      · exact h
  | tick =>
      simp only [runEvent]
      cases hp : st.pending
      · exact h
      · exact h
  | resolveOk r =>
      simp only [runEvent]
      cases hp : st.pending
      · exact h
      · exact h
  | resolveErr b =>
      simp only [runEvent]
      cases hp : st.pending
      · exact h
      · exact h
  | progressReset => exact h
  | clear => rfl

theorem runTrace_staging_empty (evs : List Event) :
    ∀ st : SystemState, (∀ e ∈ evs, isUploadEvent e = false) →
      st.chat.uploadedImages = [] →
      (runTrace st evs).chat.uploadedImages = [] := by
  induction evs with
  | nil => intro st _ h; exact h
  | cons e evs ih =>
      intro st hall h
      have hstep : runTrace st (e :: evs) = runTrace (runEvent st e) evs := rfl
      rw [hstep]
      exact ih (runEvent st e) (fun x hx => hall x (List.mem_cons_of_mem e hx))
        (runEvent_staging_empty st e (hall e (List.mem_cons_self e evs)) h)

theorem tickProgress_le (p : Nat) (h : p ≤ 85) : tickProgress p ≤ 85 := by
  unfold tickProgress; split <;> omega

theorem tickProgress_mono (p : Nat) : p ≤ tickProgress p := by
  unfold tickProgress; split <;> omega

theorem runEvent_progress_invariant (st : SystemState) (e : Event)
    (h : inFlightProgressOk st) : inFlightProgressOk (runEvent st e) := by
  cases e with
  | typeInput t =>
      simp only [runEvent]; split
      · exact h
      · intro hs; exact h hs
  | upload f token o =>
      simp only [runEvent]; split
      · exact h
      · intro hs
        show (uploadEventChat st.chat f token o).aiResponseProgress ≤ 85
        rw [uploadEventChat_progress]
        exact h hs
  | feedbackClear token => intro hs; exact h hs
  | removeImg i => intro hs; exact h hs
  | submit =>
      simp only [runEvent]; split
      · intro _; show (25 : Nat) ≤ 85; omega
      · exact h
  | tick =>
      simp only [runEvent]
      cases hp : st.pending with
      | none => exact h
      | some t =>
          intro _
          show tickProgress st.chat.aiResponseProgress ≤ 85
          exact tickProgress_le _ (h (by rw [hp]; rfl))
  | resolveOk r =>
      simp only [runEvent]
      cases hp : st.pending with
      | none => exact h
      | some t => intro hs; simp at hs
  | resolveErr b =>
      simp only [runEvent]
      cases hp : st.pending with
      | none => exact h
      | some t => intro hs; simp at hs
  | progressReset => intro _; show (0 : Nat) ≤ 85; omega
  | clear => intro _; show (0 : Nat) ≤ 85; omega

theorem runTrace_progress_invariant (evs : List Event) :
    ∀ st : SystemState, inFlightProgressOk st →
      inFlightProgressOk (runTrace st evs) := by
  induction evs with
  | nil => intro st h; exact h
  | cons e evs ih =>
      intro st h
      exact ih (runEvent st e) (runEvent_progress_invariant st e h)

theorem imageDescriptions_enum (imgs : List ImageData) :
    imageDescriptions imgs = String.intercalate "\n\n"
      (imgs.enum.map (fun p =>
        "[IMAGE " ++ toString (p.1 + 1) ++ " ANALYSIS]:\n" ++ descStr p.2)) := by
  unfold imageDescriptions
  congr 1
  apply List.filter_eq_self.mpr
  intro x hx
  obtain ⟨p, _, rfl⟩ := List.mem_map.mp hx
  rw [decide_eq_true_eq]
  intro hcontr
  have hlen := congrArg String.length hcontr
  have h7 : ("[IMAGE " : String).length = 7 := rfl
  have hA : (" ANALYSIS]:\n" : String).length = 12 := rfl
  have h0 : ("" : String).length = 0 := rfl
  simp only [String.length_append, h7, hA, h0] at hlen
  omega

/-- C1: for every submission, the outbound context is, in order: the fixed
persona system message; the carried summary directly after it when present;
the entire prior visible history in order; then, when at least one image is
attached, exactly one synthesized user-role analysis message placed directly
before the new user text message, which comes last.  The analysis message
enumerates the image descriptions indexed from "IMAGE 1" upward, one entry
per attached image. -/
theorem C1_context_order (hist : List Message) (summary : Option Message)
    (input : String) (imgs : List ImageData) :
    finalContext hist summary input imgs =
      [sanitizeMessage baseSystemMessage] ++ (summary.toList.map sanitizeMessage) ++
        hist.map sanitizeMessage ++
        (if imgs = [] then []
         else [{ role := Role.user, content := (analysisMessage imgs).content }]) ++
        [{ role := Role.user, content := input }] ∧
    (analysisMessage imgs).role = Role.user ∧
    imageDescriptions imgs = String.intercalate "\n\n"
      (imgs.enum.map (fun p =>
        "[IMAGE " ++ toString (p.1 + 1) ++ " ANALYSIS]:\n" ++ descStr p.2)) := by
  refine ⟨?_, rfl, imageDescriptions_enum imgs⟩
  unfold finalContext assembledMessages newMessagesToAdd
  by_cases himgs : imgs = []
  · simp [himgs, sanitizeMessage, userMessageForApi]
  · have hlen : imgs.length > 0 := List.length_pos.mpr himgs
    simp [himgs, hlen, sanitizeMessage, userMessageForApi, analysisMessage]

/-- C3: every message transmitted to the completion service is exactly the
role/content projection of the corresponding assembled message — the element
type `SentMessage` has exactly the two fields `role` and `content`, so no
image, progress or upload-state attribute crosses the boundary. -/
theorem C3_sanitized_projection (hist : List Message) (summary : Option Message)
    (input : String) (imgs : List ImageData) :
    (∀ i : Nat, (finalContext hist summary input imgs)[i]? =
      ((assembledMessages hist summary input imgs)[i]?).map
        (fun m => { role := m.role, content := m.content : SentMessage })) ∧
    (finalContext hist summary input imgs).length =
      (assembledMessages hist summary input imgs).length := by
  constructor
  · intro i
    unfold finalContext
    rw [List.getElem?_map]
    rfl
  · unfold finalContext
    rw [List.length_map]

/-- C10: for a turn with at least one image, the analysis message persisted
into the log on success is not textually identical to the analysis message
sent in the outbound context for the same turn — the persisted variant omits
the image count and uses different framing text — hence later outbound
contexts carry a different analysis text than the one originally transmitted.
Both carry the user role. -/
theorem C10_persisted_differs (imgs : List ImageData) (_h : imgs ≠ []) :
    (analysisMsgPersisted imgs).content ≠ (analysisMessage imgs).content ∧
    (analysisMsgPersisted imgs).role = (analysisMessage imgs).role := by
  refine ⟨?_, rfl⟩
  intro heq
  have hlen := congrArg String.length heq
  have e1 : ("[CONTEXT: IMAGE ANALYSIS] The user has provided " : String).length = 48 := rfl
  have e2 : (" image(s). Here is the detailed analysis:\n\n" : String).length = 43 := rfl
  have e3 : ("\n\n(Refer to these as Image 1, Image 2, etc. Use this context to answer the user\x27s questions.)" : String).length = 93 := rfl
  have e4 : ("[CONTEXT: IMAGE ANALYSIS] The user has provided images. Here is the detailed analysis:\n" : String).length = 87 := rfl
  have e5 : ("\n\n(Use this information to answer the user\x27s questions about the images.)" : String).length = 73 := rfl
  simp only [analysisMsgPersisted, analysisMessage, String.length_append,
    e1, e2, e3, e4, e5] at hlen
  omega

/-- Witness for C10 at a concrete one-image turn. -/
theorem C10_witness :
    (analysisMsgPersisted [{ url := "u", description := some "a red car" }]).content ≠
      (analysisMessage [{ url := "u", description := some "a red car" }]).content ∧
    (analysisMsgPersisted [{ url := "u", description := some "a red car" }]).role =
      (analysisMessage [{ url := "u", description := some "a red car" }]).role :=
  C10_persisted_differs [{ url := "u", description := some "a red car" }] (by decide)

/-- C2 counterexample: the claim quantifies over every reachable state, but in
the reachable (and quiescent: no request in flight) state after an image turn
whose completion request failed, the log holds the image-carrying user message
with no synthesized analysis message before it — the analysis message is only
inserted on the success path. -/
theorem C2_counterexample :
    Reachable c2BadState ∧
    c2BadState.pending = none ∧
    logInvariantHolds c2BadState.chat.messages = false :=
  ⟨⟨c2Trace, rfl⟩, by decide, by decide⟩

/-- C2 (amended): in every state reached by a session in which every
submitted turn resolves successfully (arbitrary uploads, typing, image
removal, progress activity and clears interleaved), the persisted log
contains, for each turn submitted with at least one image, the synthesized
analysis message immediately before that turn's user message.  States in the
middle of an in-flight submission or after a failed image-turn request are
excluded: there the analysis message is missing, as the counterexample
shows. -/
theorem C2_amended (evs : List Event) (hg : GoodTrace evs) :
    logInvariantHolds (runTrace initState evs).chat.messages = true :=
  (goodTrace_invariant evs hg initState rfl rfl).1

/-- Witness for C2 (amended): a successful one-image turn yields a log
satisfying the invariant. -/
theorem C2_witness :
    logInvariantHolds (runTrace initState
      [Event.upload { type := "image/png", size := 5 } "t1"
         (UploadOutcome.netSuccess "u" "d"),
       Event.submit,
       Event.resolveOk { role := Role.assistant, content := "ok" }]).chat.messages = true :=
  C2_amended _ (GoodTrace.nonturn _ _ rfl
    (GoodTrace.turn { role := Role.assistant, content := "ok" } [] GoodTrace.nil))

/-- C4 (amended): when the in-flight request fails with a body carrying a
non-empty error string `s`, the state machine lands in the error state with
exactly the message `s`, the log — including the optimistically appended user
message — is unchanged (no rollback), progress resets to 0, and loading ends.
For `s = ""` the JS falsy check `data.error || ...` substitutes the generic
"Failed to get response" instead, which is what the counterexample records. -/
theorem C4_amended (st : SystemState) (t : PendingTurn) (s : String)
    (hp : st.pending = some t) (hs : s ≠ "") :
    (runEvent st (Event.resolveErr (some s))).chat.error = some s ∧
    (runEvent st (Event.resolveErr (some s))).chat.messages = st.chat.messages ∧
    (runEvent st (Event.resolveErr (some s))).chat.aiResponseProgress = 0 ∧
    (runEvent st (Event.resolveErr (some s))).chat.isLoading = false := by
  have h1 : runEvent st (Event.resolveErr (some s)) =
      { chat := resolveErrChat st.chat (some s), pending := none } := by
    simp [runEvent, hp]
  rw [h1]
  refine ⟨?_, rfl, rfl, rfl⟩
  show some (errorMessageOfBody (some s)) = some s
  unfold errorMessageOfBody
  simp [hs]

/-- C4 counterexample: with failure body carrying the error string `""` — a
non-2xx response with body of the claimed shape — the error state message is
the generic fallback, not the transmitted string, because the JS `||` treats
the empty string as falsy.  The claim as stated ("exactly the message s" for
every body string) therefore fails at s = "". -/
theorem C4_counterexample :
    Reachable c4PendingState ∧
    c4PendingState.pending.isSome = true ∧
    (runEvent c4PendingState (Event.resolveErr (some ""))).chat.error =
      some "Failed to get response" ∧
    (runEvent c4PendingState (Event.resolveErr (some ""))).chat.error ≠ some "" :=
  ⟨⟨[Event.typeInput "Hello", Event.submit], rfl⟩, by decide, by decide, by decide⟩

/-- Witness for C4 (amended) at the spec's own scenario: failure body "rate
limited" after submitting "Hello". -/
theorem C4_witness :
    (runEvent c4PendingState (Event.resolveErr (some "rate limited"))).chat.error =
      some "rate limited" ∧
    (runEvent c4PendingState (Event.resolveErr (some "rate limited"))).chat.messages =
      c4PendingState.chat.messages ∧
    (runEvent c4PendingState (Event.resolveErr
      (some "rate limited"))).chat.aiResponseProgress = 0 ∧
    (runEvent c4PendingState (Event.resolveErr (some "rate limited"))).chat.isLoading =
      false :=
  C4_amended c4PendingState { currentInput := "Hello", currentImages := [] }
    "rate limited" (by decide) (by decide)

/-- C5: a file whose MIME type does not start with "image/" or whose size
exceeds 10 MiB is rejected by the validation prefix of `handleImageUpload`:
a user-visible error message is set, the attachment list is untouched, and
the outcome of the network interaction is irrelevant to the resulting state
(no network call is made).  Image-typed files of at most 10 MiB pass the
validation. -/
theorem C5_upload_validation (s : ChatState) (f : FileData) (token : String)
    (o o' : UploadOutcome) (msg : String) :
    (validateImageFile f = some msg →
      uploadEventChat s f token o = { s with error := some msg } ∧
      (uploadEventChat s f token o).uploadedImages = s.uploadedImages ∧
      uploadEventChat s f token o = uploadEventChat s f token o') ∧
    (strStartsWith f.type "image/" = true → f.size ≤ 10 * 1024 * 1024 →
      validateImageFile f = none) ∧
    (strStartsWith f.type "image/" = false ∨ f.size > 10 * 1024 * 1024 →
      ∃ m, validateImageFile f = some m) := by
  refine ⟨?_, ?_, ?_⟩
  · intro hv
    unfold uploadEventChat
    rw [hv]
    exact ⟨rfl, rfl, rfl⟩
  · intro h1 h2
    have h3 : ¬(f.size > 10 * 1024 * 1024) := by omega
    simp [validateImageFile, h1, h3]
  · intro h
    by_cases ht : strStartsWith f.type "image/" = true
    · cases h with
      | inl h1 => rw [ht] at h1; cases h1
      | inr h2 => exact ⟨"Image size must be less than 10MB", by simp [validateImageFile, ht, h2]⟩
    · exact ⟨"Please upload a valid image file", by simp [validateImageFile, ht]⟩

/-- Witness for C5: a text file is rejected identically under both network
outcomes (no call is observable), and a small PNG passes validation. -/
theorem C5_witness :
    uploadEventChat {} { type := "text/plain", size := 5 } "tok"
        (UploadOutcome.netSuccess "u" "d") =
      uploadEventChat {} { type := "text/plain", size := 5 } "tok"
        (UploadOutcome.netFailure "e") ∧
    validateImageFile { type := "image/png", size := 1000 } = none ∧
    (∃ m, validateImageFile { type := "image/png", size := 10485761 } = some m) :=
  ⟨((C5_upload_validation {} { type := "text/plain", size := 5 } "tok"
      (UploadOutcome.netSuccess "u" "d") (UploadOutcome.netFailure "e")
      "Please upload a valid image file").1 (by decide)).2.2,
   (C5_upload_validation {} { type := "image/png", size := 1000 } "tok"
      (UploadOutcome.netSuccess "u" "d") (UploadOutcome.netSuccess "u" "d")
      "x").2.1 (by decide) (by decide),
   (C5_upload_validation {} { type := "image/png", size := 10485761 } "tok"
      (UploadOutcome.netSuccess "u" "d") (UploadOutcome.netSuccess "u" "d")
      "x").2.2 (Or.inr (by decide))⟩

/-- C6 counterexample: the claim covers every output of the delimiter
rewrites, but `delimiterRewrites c6Source` is such an output on which
applying the normalizer twice differs from applying it once — the first
lazy global pass turns the nested source into "$a\(b\(c$ \) \) ", whose
leftover escaped delimiters recombine into fresh matches on each of the next
two passes. -/
theorem C6_counterexample :
    (∃ t, delimiterRewrites t = delimiterRewrites c6Source) ∧
    formatMathContent (formatMathContent (delimiterRewrites c6Source)) ≠
      formatMathContent (delimiterRewrites c6Source) :=
  ⟨⟨c6Source, rfl⟩, by decide⟩

/-- C6 (amended): the math-notation normalizer is idempotent on text already
normalized in the sense of being a fixed point of the delimiter rewrites:
applying the delimiter rewrites twice to such a string yields the same output
as applying them once.  This does not extend to arbitrary outputs of a
single delimiter pass, because one lazy global pass can leave — and pair up —
residual escaped delimiters that a further pass rewrites, as the
counterexample shows. -/
theorem C6_amended (s : String) (h : delimiterRewrites s = s) :
    delimiterRewrites (delimiterRewrites s) = delimiterRewrites s := by
  rw [h]
  exact h

/-- Witness for C6 (amended) on an already-normalized string. -/
theorem C6_witness :
    delimiterRewrites (delimiterRewrites "hello $x$ and $$y$$") =
      delimiterRewrites "hello $x$ and $$y$$" :=
  C6_amended "hello $x$ and $$y$$" (by decide)

/-- C7: the simulated progress value is monotone under the interval tick; in
every reachable state with a request in flight it stays at or below the cap
85 < 100, so it never reaches 100 before the real response arrives; on
success it is snapped to 100 and the delayed reset then returns it to 0; on
failure it is reset to 0. -/
theorem C7_progress :
    (∀ p : Nat, p ≤ tickProgress p) ∧
    (∀ st : SystemState, Reachable st → st.pending.isSome = true →
      st.chat.aiResponseProgress ≤ 85) ∧
    (∀ (st : SystemState) (t : PendingTurn) (r : SentMessage), st.pending = some t →
      (runEvent st (Event.resolveOk r)).chat.aiResponseProgress = 100) ∧
    (∀ st : SystemState,
      (runEvent st Event.progressReset).chat.aiResponseProgress = 0) ∧
    (∀ (st : SystemState) (t : PendingTurn) (body : Option String),
      st.pending = some t →
      (runEvent st (Event.resolveErr body)).chat.aiResponseProgress = 0) := by
  refine ⟨tickProgress_mono, ?_, ?_, ?_, ?_⟩
  · intro st hr hs
    obtain ⟨evs, rfl⟩ := hr
    exact runTrace_progress_invariant evs initState (fun _ => Nat.zero_le 85) hs
  · intro st t r hp
    simp [runEvent, hp, resolveOkChat]
  · intro st
    rfl
  · intro st t body hp
    simp [runEvent, hp, resolveErrChat]

/-- Witness for C7 at concrete states. -/
theorem C7_witness :
    (3 : Nat) ≤ tickProgress 3 ∧
    pendingHello.chat.aiResponseProgress ≤ 85 ∧
    (runEvent pendingHello
      (Event.resolveOk { role := Role.assistant, content := "hi" })).chat.aiResponseProgress
      = 100 ∧
    (runEvent pendingHello Event.progressReset).chat.aiResponseProgress = 0 ∧
    (runEvent pendingHello (Event.resolveErr (some "x"))).chat.aiResponseProgress = 0 :=
  ⟨C7_progress.1 3,
   C7_progress.2.1 pendingHello ⟨[Event.typeInput "Hello", Event.submit], rfl⟩ (by decide),
   C7_progress.2.2.1 pendingHello { currentInput := "Hello", currentImages := [] } _
     (by decide),
   C7_progress.2.2.2.1 pendingHello,
   C7_progress.2.2.2.2 pendingHello { currentInput := "Hello", currentImages := [] }
     (some "x") (by decide)⟩

/-- C8 counterexample: the id token comes from
`Math.random().toString(36).substring(7)`, which guarantees no uniqueness;
when two uploads draw the same token the session reaches a state with two
distinct attachments carrying the same id, and a targeted update by that id
changes both of them — not exactly one.  (The second upload's by-id updates
even overwrite the first attachment's url and description.) -/
theorem C8_counterexample :
    Reachable collideState ∧
    collideState.chat.uploadedImages.length = 2 ∧
    (collideState.chat.uploadedImages[0]?).map ImageData.id = some (some "abc") ∧
    (collideState.chat.uploadedImages[1]?).map ImageData.id = some (some "abc") ∧
    (updateImageById collideState.chat.uploadedImages "abc"
        (fun img => { img with status := some "X" }))[0]? ≠
      collideState.chat.uploadedImages[0]? ∧
    (updateImageById collideState.chat.uploadedImages "abc"
        (fun img => { img with status := some "X" }))[1]? ≠
      collideState.chat.uploadedImages[1]? :=
  ⟨⟨collideTrace, rfl⟩, by decide, by decide, by decide, by decide, by decide⟩

/-- C8 (amended): attachment ids are exactly the drawn random tokens, so
uniqueness holds only as far as the generator happens to produce distinct
tokens.  When the attachments in the staging list have pairwise distinct ids,
a targeted update by id modifies at most one position of the list; with a
collision it modifies every matching attachment, as the counterexample
shows. -/
theorem C8_amended (imgs : List ImageData)
    (h : imgs.Pairwise (fun a b => a.id = none ∨ b.id = none ∨ a.id ≠ b.id))
    (tok : String) (f : ImageData → ImageData) (i j : Nat) (hij : i ≠ j) :
    ¬((updateImageById imgs tok f)[i]? ≠ imgs[i]? ∧
      (updateImageById imgs tok f)[j]? ≠ imgs[j]?) := by
  rintro ⟨hi, hj⟩
  have key : ∀ k : Nat, (updateImageById imgs tok f)[k]? ≠ imgs[k]? →
      ∃ hk : k < imgs.length, imgs[k].id = some tok := by
    intro k hk
    rw [updateImageById, List.getElem?_map] at hk
    cases hmem : imgs[k]? with
    | none => rw [hmem] at hk; simp at hk
    | some a =>
        rw [hmem] at hk
        obtain ⟨hlt, hget⟩ := List.getElem?_eq_some.mp hmem
        by_cases hid : a.id = some tok
        · exact ⟨hlt, by rw [hget, hid]⟩
        · simp [hid] at hk
  obtain ⟨hilt, hiid⟩ := key i hi
  obtain ⟨hjlt, hjid⟩ := key j hj
  have hpair := List.pairwise_iff_getElem.mp h
  rcases Nat.lt_trichotomy i j with hlt | heq | hgt
  · rcases hpair i j hilt hjlt hlt with h1 | h1 | h1
    · rw [hiid] at h1; cases h1
    · rw [hjid] at h1; cases h1
    · rw [hiid, hjid] at h1; exact h1 rfl
  · exact hij heq
  · rcases hpair j i hjlt hilt hgt with h1 | h1 | h1
    · rw [hjid] at h1; cases h1
    · rw [hiid] at h1; cases h1
    · rw [hjid, hiid] at h1; exact h1 rfl

/-- Witness for C8 (amended): with two distinct ids a targeted update cannot
change two positions. -/
theorem C8_witness :
    ¬((updateImageById [{ id := some "a", url := "u1" },
        { id := some "b", url := "u2" }] "a"
        (fun img => { img with status := some "X" }))[0]? ≠
        ([{ id := some "a", url := "u1" }, { id := some "b", url := "u2" }] :
          List ImageData)[0]? ∧
      (updateImageById [{ id := some "a", url := "u1" },
        { id := some "b", url := "u2" }] "a"
        (fun img => { img with status := some "X" }))[1]? ≠
        ([{ id := some "a", url := "u1" }, { id := some "b", url := "u2" }] :
          List ImageData)[1]?) :=
  C8_amended [{ id := some "a", url := "u1" }, { id := some "b", url := "u2" }]
    (by decide) "a" (fun img => { img with status := some "X" }) 0 1 (by decide)

/-- C9: an accepted submission synchronously clears the input text and the
staged attachment list in the same step that captures them — before the
request can resolve — and attaches the captured images to the optimistic user
message; neither resolution outcome touches the staging area, and for the
remainder of the turn (indeed, until some later upload event) the staging
area stays empty, so a staged attachment can never be captured by two
submitted turns. -/
theorem C9_submit_effects :
    (∀ st : SystemState, submitGuard st.chat = true →
      (runEvent st Event.submit).chat.input = "" ∧
      (runEvent st Event.submit).chat.uploadedImages = [] ∧
      (runEvent st Event.submit).chat.messages =
        st.chat.messages ++
          [{ role := Role.user, content := jsTrim st.chat.input,
             images := some st.chat.uploadedImages }] ∧
      (runEvent st Event.submit).pending =
        some { currentInput := jsTrim st.chat.input,
               currentImages := st.chat.uploadedImages }) ∧
    (∀ (st : SystemState) (r : SentMessage),
      (runEvent st (Event.resolveOk r)).chat.uploadedImages =
        st.chat.uploadedImages) ∧
    (∀ (st : SystemState) (body : Option String),
      (runEvent st (Event.resolveErr body)).chat.uploadedImages =
        st.chat.uploadedImages) ∧
    (∀ (st : SystemState) (evs : List Event), submitGuard st.chat = true →
      (∀ e ∈ evs, isUploadEvent e = false) →
      (runTrace (runEvent st Event.submit) evs).chat.uploadedImages = []) := by
  refine ⟨?_, ?_, ?_, ?_⟩
  · intro st h
    have h1 : runEvent st Event.submit =
        { chat := submitChat st.chat
          pending := some { currentInput := jsTrim st.chat.input
                            currentImages := st.chat.uploadedImages } } := by
      simp [runEvent, h]
    rw [h1]
    exact ⟨rfl, rfl, rfl, rfl⟩
  · intro st r
    simp only [runEvent]
    cases hp : st.pending
    · rfl
    · rfl
  · intro st body
    simp only [runEvent]
    cases hp : st.pending
    · rfl
    · rfl
  · intro st evs hg hall
    apply runTrace_staging_empty evs _ hall
    simp [runEvent, hg]
    rfl

/-- Witness for C9: submitting "Hi" clears the input and staging, and the
staging area stays empty through a tick and a failed resolution. -/
theorem C9_witness :
    (runEvent (runTrace initState [Event.typeInput "Hi"]) Event.submit).chat.input
      = "" ∧
    (runEvent (runTrace initState
      [Event.typeInput "Hi"]) Event.submit).chat.uploadedImages = [] ∧
    (runTrace (runEvent (runTrace initState [Event.typeInput "Hi"]) Event.submit)
      [Event.tick, Event.resolveErr (some "x")]).chat.uploadedImages = [] :=
  ⟨(C9_submit_effects.1 _ (by decide)).1,
   (C9_submit_effects.1 _ (by decide)).2.1,
   C9_submit_effects.2.2.2 _ [Event.tick, Event.resolveErr (some "x")]
     (by decide) (by decide)⟩
